import Mathlib

/-!
Verification of the intelligent-document-analyst core pipeline.

This file shallowly embeds the Python modules `section_extractor.py`,
`relevance_ranker.py`, `model_manager.py` and `persona_analyzer.py` into
Lean 4. Python strings are modelled as `String` / `List Char`, Python
floats as exact rationals (`Rat`), Python lists as `List`, Python sets as
`Finset`, and fallible code as `Except`. The `re` regular-expression
calls (`re.finditer` / `re.search` with `MULTILINE | IGNORECASE`) are
embedded by a small backtracking matcher specialised to the eleven
header patterns of `SectionExtractor`, hand-compiled from the pattern
strings: they use only literals, character classes, greedy `+` and `*`
over a class, a single capture group, the multiline anchors, and
case-insensitive folding.
-/

set_option maxRecDepth 40000

namespace DocAnalyst

/-! ## Python string primitives -/

/-- Python whitespace for `\s`, `str.split()` and `str.strip()`
(ASCII range; all texts in this development are ASCII). -/
def pySpace (c : Char) : Bool :=
  c = ' ' || c = '\t' || c = '\n' || c = '\r' || c = '\x0B' || c = '\x0C'

/-- Python `str.lower()` on a list of characters (ASCII case folding). -/
def lowerList (l : List Char) : List Char := l.map Char.toLower

/-- Python `str.strip()`: drop leading and trailing whitespace. -/
def stripChars (l : List Char) : List Char :=
  ((l.dropWhile pySpace).reverse.dropWhile pySpace).reverse

/-- Python `s[a:b]` slicing on a character list. -/
def sliceList (l : List Char) (a b : Nat) : List Char := (l.take b).drop a

/-- Python `s.split('\n')`: split at every newline, keeping empty parts. -/
def splitNL : List Char → List (List Char)
  | [] => [[]]
  | c :: rest =>
    if c = '\n' then [] :: splitNL rest
    else
      match splitNL rest with
      | l :: ls => (c :: l) :: ls
      | [] => [[c]]

/-- Python `str.split()` with no argument: split on whitespace runs,
dropping empty tokens. -/
def pySplitAux : List Char → List Char → List (List Char)
  | [], acc => if acc.isEmpty then [] else [acc.reverse]
  | c :: rest, acc =>
    if pySpace c then
      if acc.isEmpty then pySplitAux rest []
      else acc.reverse :: pySplitAux rest []
    else pySplitAux rest (c :: acc)

def pySplit (l : List Char) : List (List Char) := pySplitAux l []

/-- Python substring test `needle in hay`. -/
def substrB (needle hay : List Char) : Bool :=
  (List.range (hay.length + 1)).any (fun i => needle.isPrefixOf (hay.drop i))

/-! ## Regular-expression engine

Specialised to the `SectionExtractor.header_patterns` regexes, all of
which are `^`-anchored and built from literals, `\d+`, `\s+`/`\s*`,
`[A-Z]`, `[^.]*`, `[A-Z\s]+`, one capture group and an optional `$`.
Under `re.IGNORECASE`, `[A-Z]` matches any ASCII letter and literals
match case-insensitively; under `re.MULTILINE`, `^` matches at position
0 and right after each newline, and `$` matches at the end of the text
and right before each newline. `\s` and `[^.]` both match newlines. -/

/-- Character classes occurring in the header patterns. -/
inductive CClass where
  | digit
  | space
  | alpha
  | notDot
  | alphaSpace
deriving DecidableEq

def CClass.test : CClass → Char → Bool
  | .digit, c => c.isDigit
  | .space, c => pySpace c
  | .alpha, c => c.isAlpha
  | .notDot, c => c ≠ '.'
  | .alphaSpace, c => c.isAlpha || pySpace c

/-- One element of a compiled pattern. `lit` words are stored
case-folded; `gstart`/`gend` delimit the single capture group. -/
inductive RItem where
  | lit (w : List Char)
  | one (cls : CClass)
  | plus (cls : CClass)
  | star (cls : CClass)
  | eol
  | gstart
  | gend
deriving DecidableEq

/-- Case-insensitive literal match of `w` against the front of the
remaining text. -/
def litMatchL : List Char → List Char → Bool
  | _, [] => true
  | [], _ :: _ => false
  | d :: ds, c :: cs => (d.toLower = c) && litMatchL ds cs

/-- Result of matching a pattern at a fixed start position: the end
position of the whole match and the span of capture group 1 (absolute
positions in the subject text). -/
structure MatchRes where
  stop : Nat
  gs : Nat
  ge : Nat
deriving DecidableEq

/-- Backtracking matcher for a compiled pattern. `rem` is the remaining
text (the suffix of the subject starting at absolute position `pos`).
Greedy `+`/`*` over a character class try the longest repetition count
first and backtrack downwards, exactly as Python's `re` does; the fuel
argument is only a structural-recursion device and one unit is spent
per pattern item, so `items.length + 1` fuel always suffices. -/
def matchItems : Nat → List RItem → List Char → Nat → Option Nat → Option Nat → Option MatchRes
  | 0, _, _, _, _, _ => none
  | _ + 1, [], _, pos, gs, ge => some ⟨pos, gs.getD 0, ge.getD 0⟩
  | fuel + 1, item :: rest, rem, pos, gs, ge =>
    match item with
    | .lit w =>
      if litMatchL rem w then matchItems fuel rest (rem.drop w.length) (pos + w.length) gs ge
      else none
    | .one cls =>
      match rem with
      | c :: rem' => if cls.test c then matchItems fuel rest rem' (pos + 1) gs ge else none
      | [] => none
    | .plus cls =>
      let n := (rem.takeWhile cls.test).length
      (List.range (n + 1)).reverse.findSome? (fun k =>
        if 1 ≤ k then matchItems fuel rest (rem.drop k) (pos + k) gs ge else none)
    | .star cls =>
      let n := (rem.takeWhile cls.test).length
      (List.range (n + 1)).reverse.findSome? (fun k =>
        matchItems fuel rest (rem.drop k) (pos + k) gs ge)
    | .eol =>
      match rem with
      | [] => matchItems fuel rest rem pos gs ge
      | c :: _ => if c = '\n' then matchItems fuel rest rem pos gs ge else none
    | .gstart => matchItems fuel rest rem pos (some pos) ge
    | .gend => matchItems fuel rest rem pos gs (some pos)

/-- Run a compiled pattern against the suffix of the subject starting at
absolute position `pos`. -/
def runPattern (p : List RItem) (rem : List Char) (pos : Nat) : Option MatchRes :=
  matchItems (p.length + 1) p rem pos none none

/-- The candidate start positions after position 0 for a `^`-anchored
pattern under `re.MULTILINE` — every position right after a newline —
paired with the corresponding suffix of the subject. -/
def lineSuffixesAux : List Char → Nat → List (Nat × List Char)
  | [], _ => []
  | c :: rest, pos =>
    if c = '\n' then (pos + 1, rest) :: lineSuffixesAux rest (pos + 1)
    else lineSuffixesAux rest (pos + 1)

/-- All candidate start positions (with suffixes) for a `^`-anchored
pattern under `re.MULTILINE`: position 0 and every position right after
a newline. -/
def lineSuffixes (s : List Char) : List (Nat × List Char) :=
  (0, s) :: lineSuffixesAux s 0

/-- Python `re.search`: leftmost match of an anchored pattern. -/
def searchPat (p : List RItem) (s : List Char) : Option (Nat × MatchRes) :=
  (lineSuffixes s).findSome?
    (fun pr => (runPattern p pr.2 pr.1).map (fun r => (pr.1, r)))

/-- One match reported by `re.finditer`: span and capture group 1. -/
structure PMatch where
  start : Nat
  stop : Nat
  group : List Char
deriving DecidableEq

/-- Python `re.finditer`: repeatedly take the leftmost match at or after
the previous match's end (all header patterns consume at least one
character, so each step advances and `s.length + 1` rounds suffice). -/
def finditerAux (p : List RItem) (s : List Char) : Nat → Nat → List PMatch
  | 0, _ => []
  | fuel + 1, lo =>
    match ((lineSuffixes s).filter (fun pr => lo ≤ pr.1)).findSome?
        (fun pr => (runPattern p pr.2 pr.1).map (fun r => (pr.1, r))) with
    | none => []
    | some (pos, r) => ⟨pos, r.stop, sliceList s r.gs r.ge⟩ :: finditerAux p s fuel r.stop

def finditer (p : List RItem) (s : List Char) : List PMatch :=
  finditerAux p s (s.length + 1) 0

/-- Compiled form of the canonical-name patterns such as
`^(Abstract)\s*$`. -/
def litWord (w : String) : List RItem :=
  [.gstart, .lit w.data, .gend, .star .space, .eol]

/-- Model of `SectionExtractor.header_patterns`, compiled, in source order:
`^\d+\.\s+([A-Z][^.]*)`, `^([A-Z][A-Z\s]+)$`, then the nine canonical
section names. -/
def headerPatterns : List (List RItem) :=
  [ [.plus .digit, .lit ['.'], .plus .space, .gstart, .one .alpha, .star .notDot, .gend],
    [.gstart, .one .alpha, .plus .alphaSpace, .gend, .eol],
    litWord "abstract",
    litWord "introduction",
    litWord "methodology",
    litWord "results",
    litWord "discussion",
    litWord "conclusion",
    litWord "references",
    litWord "background",
    litWord "methods" ]

/-! ## Data model -/

/-- One entry of `ProcessedDocument.page_contents` (the keys `text` and
`page_number` are always present, see `document_processor.py`). -/
structure PageContent where
  page_number : Nat
  text : String
deriving DecidableEq

/-- Model of `document_processor.ProcessedDocument`, restricted to the fields the
segmenter reads (`metadata` and `processing_stats` are never consumed by
the components verified here). -/
structure ProcessedDocument where
  filename : String
  text_content : String
  page_contents : List PageContent
deriving DecidableEq

/-- Model of `section_extractor.ExtractedSection`. -/
structure ExtractedSection where
  document_name : String
  page_number : Nat
  section_title : String
  section_text : String
  section_type : String
  confidence_score : Rat
  start_position : Nat
  end_position : Nat
deriving DecidableEq

/-- Model of `persona_analyzer.PersonaAnalysis`, restricted to the fields read by
the ranker (`analysis_context` is a free-form dictionary never consumed
by scoring). -/
structure PersonaAnalysis where
  persona : String
  job_to_be_done : String
  expertise_areas : List String
  key_interests : List String
  priority_keywords : List String
deriving DecidableEq

/-! ## Section extractor (`section_extractor.py`) -/

/-- Model of `SectionExtractor._find_section_end`: try each header pattern in
list order on the text after `startPos` and return one past `startPos`
plus the first matching pattern's leftmost match position; if no pattern
matches, cap at `startPos + 5000` or the end of the text. -/
def findSectionEnd (text : List Char) (startPos : Nat) : Nat :=
  match headerPatterns.findSome?
      (fun p => (searchPat p (text.drop (startPos + 1))).map (fun pr => pr.1)) with
  | some pos => startPos + 1 + pos
  | none => min (startPos + 5000) text.length

/-- Modelled from the spec (for comparison with `findSectionEnd`): the
section end claimed by the specification, namely the start of the
*nearest* next matched header over all patterns, and only if no pattern
matches at all, `min (startPos + 5000) text.length`. -/
def nearestSectionEnd (text : List Char) (startPos : Nat) : Nat :=
  match headerPatterns.filterMap
      (fun p => (searchPat p (text.drop (startPos + 1))).map (fun pr => pr.1)) with
  | [] => min (startPos + 5000) text.length
  | q :: qs => startPos + 1 + qs.foldl min q

/-- Model of `SectionExtractor._estimate_page_number`, inner walk: returns the
page owning `position`, accumulating page-text lengths plus 2 for the
join separator. -/
def estimatePageAux (position : Nat) : List PageContent → Nat → Option Nat
  | [], _ => none
  | p :: rest, cur =>
    if position < cur + p.text.data.length then some p.page_number
    else estimatePageAux position rest (cur + p.text.data.length + 2)

/-- Model of `SectionExtractor._estimate_page_number`. -/
def estimatePageNumber (doc : ProcessedDocument) (position : Nat) : Nat :=
  if doc.page_contents.isEmpty then 1
  else
    match estimatePageAux position doc.page_contents 0 with
    | some n => n
    | none => doc.page_contents.length

/-- The `type_mapping` table of `SectionExtractor._classify_section_type`,
in source order. -/
def typeMapping : List (String × String) :=
  [("abstract", "abstract"), ("introduction", "introduction"),
   ("methodology", "methods"), ("method", "methods"), ("results", "results"),
   ("discussion", "discussion"), ("conclusion", "conclusion"),
   ("references", "references"), ("background", "background")]

/-- Model of `SectionExtractor._classify_section_type`: first table key that is a
substring of the folded title, defaulting to "content". -/
def classifySectionType (title : String) : String :=
  let tl := lowerList title.data
  match typeMapping.find? (fun kv => substrB kv.1.data tl) with
  | some kv => kv.2
  | none => "content"

/-- The end position of the structural section starting at a match. -/
def structuralEnd (doc : ProcessedDocument) (m : PMatch) : Nat :=
  findSectionEnd doc.text_content.data m.start

/-- The stripped body `text[start_pos:end_pos].strip()` of a structural
section candidate. -/
def structuralBody (doc : ProcessedDocument) (m : PMatch) : List Char :=
  stripChars (sliceList doc.text_content.data m.start (structuralEnd doc m))

/-- The section built from one `finditer` match in
`_extract_from_full_text`, or `none` when its body is under 50
characters. -/
def structuralSection (doc : ProcessedDocument) (m : PMatch) : Option ExtractedSection :=
  if (structuralBody doc m).length < 50 then none
  else
    some { document_name := doc.filename
           page_number := estimatePageNumber doc m.start
           section_title := String.mk m.group
           section_text := String.mk (structuralBody doc m)
           section_type := classifySectionType (String.mk m.group)
           confidence_score := 7 / 10
           start_position := m.start
           end_position := structuralEnd doc m }

/-- Model of `SectionExtractor._extract_from_full_text`: for every pattern in
order and every `finditer` match, build a section from the match start
to `findSectionEnd`, stripped, skipping bodies under 50 characters. -/
def extractFromFullText (doc : ProcessedDocument) : List ExtractedSection :=
  headerPatterns.flatMap (fun p =>
    (finditer p doc.text_content.data).filterMap (structuralSection doc))

/-- The title chosen in `_extract_from_pages`: the first of the first
five lines whose stripped form has length in (0, 100), else a
synthesized placeholder. -/
def pageTitle (page : PageContent) : String :=
  match ((splitNL page.text.data).take 5).map stripChars
      |>.find? (fun l => 0 < l.length && l.length < 100) with
  | some l => String.mk l
  | none => "Page " ++ toString page.page_number ++ " Content"

/-- The section built from one page in `_extract_from_pages`, or `none`
when the stripped page text does not exceed 200 characters. -/
def pageSection (doc : ProcessedDocument) (page : PageContent) : Option ExtractedSection :=
  if 200 < (stripChars page.text.data).length then
    some { document_name := doc.filename
           page_number := page.page_number
           section_title := pageTitle page
           section_text := page.text
           section_type := "content"
           confidence_score := 1 / 2
           start_position := 0
           end_position := page.text.data.length }
  else none

/-- Model of `SectionExtractor._extract_from_pages`: every page whose stripped
text exceeds 200 characters becomes one section with the whole page
text as body. -/
def extractFromPages (doc : ProcessedDocument) : List ExtractedSection :=
  doc.page_contents.filterMap (pageSection doc)

/-- Deduplication key of `SectionExtractor._remove_duplicate_sections`:
the case-folded, stripped title. -/
def dedupKey (s : ExtractedSection) : List Char := stripChars (lowerList s.section_title.data)

/-- Model of `SectionExtractor._remove_duplicate_sections`, with the `seen_titles`
set made explicit: keep the first section per dedup key. -/
def removeDupAux (seen : List (List Char)) : List ExtractedSection → List ExtractedSection
  | [] => []
  | s :: rest =>
    let key := dedupKey s
    if key ∈ seen then removeDupAux seen rest
    else s :: removeDupAux (key :: seen) rest

def removeDuplicateSections (l : List ExtractedSection) : List ExtractedSection :=
  removeDupAux [] l

/-- The key ordering of `sorted(unique_sections, key=lambda x: x.start_position)`;
Python's sort is stable, which `List.insertionSort` with this relation models. -/
def startLE (a b : ExtractedSection) : Prop := a.start_position ≤ b.start_position

instance : DecidableRel startLE := fun a b =>
  inferInstanceAs (Decidable (a.start_position ≤ b.start_position))

/-- Model of `SectionExtractor._extract_sections_from_document`: the structural
pass always runs; the page-fallback pass is appended only when the
structural pass produced fewer than 2 sections; the union is
deduplicated and sorted by start position. -/
def extractSectionsFromDocument (doc : ProcessedDocument) : List ExtractedSection :=
  List.insertionSort startLE (removeDuplicateSections
    (if (extractFromFullText doc).length < 2 then
      extractFromFullText doc ++ extractFromPages doc
    else extractFromFullText doc))

/-- Model of `SectionExtractor.extract_sections` over all documents (the
per-document exception handler is dead code in this pure model). -/
def extractSections (docs : List ProcessedDocument) : List ExtractedSection :=
  docs.flatMap extractSectionsFromDocument

/-- Number of header matches the structural pass detects in a document:
all `finditer` matches over all patterns. -/
def headersDetected (doc : ProcessedDocument) : Nat :=
  (headerPatterns.map (fun p => (finditer p doc.text_content.data).length)).sum

/-! ## Model manager (`model_manager.py`) -/

/-- The case-folded whitespace-tokenized word set of a text, as built by
`set(text.lower().split())`. -/
def wordSet (s : String) : Finset String :=
  ((pySplit (lowerList s.data)).map String.mk).toFinset

/-- Model of `ModelManager._fallback_similarity_score`: Jaccard word-set overlap,
0 when either word set is empty. -/
def fallbackSimilarityScore (t1 t2 : String) : Rat :=
  if wordSet t1 = ∅ ∨ wordSet t2 = ∅ then 0
  else
    if 0 < (wordSet t1 ∪ wordSet t2).card then
      ((wordSet t1 ∩ wordSet t2).card : Rat) / ((wordSet t1 ∪ wordSet t2).card : Rat)
    else 0

/-- Model of `ModelManager.get_sentence_encoder`: the body is
`return None` unconditionally, which `Option Empty` captures exactly —
no encoder value can ever exist. -/
def getSentenceEncoder : Option Empty := none

/-- Model of `ModelManager.compute_similarity`: with the encoder branch
unreachable, every call resolves to the lexical fallback. -/
def computeSimilarity (t1 t2 : String) : Rat :=
  match getSentenceEncoder with
  | none => fallbackSimilarityScore t1 t2
  | some e => e.elim

/-! ## Persona analyzer (`persona_analyzer.py`) -/

/-- The `expertise_keywords` table of
`PersonaAnalyzer._extract_expertise_areas`, in source (insertion)
order. -/
def expertiseKeywords : List (String × List String) :=
  [("researcher", ["research", "analysis", "methodology", "data"]),
   ("analyst", ["analysis", "trends", "metrics", "performance"]),
   ("student", ["learning", "concepts", "fundamentals", "exam"]),
   ("investment", ["financial", "revenue", "market", "growth"]),
   ("phd", ["advanced", "theoretical", "methodology", "literature"]),
   ("chemistry", ["chemical", "reactions", "compounds", "mechanisms"])]

/-- Model of `PersonaAnalyzer._extract_expertise_areas`: `areas` starts empty and
is extended (list append, not set union) with the term list of every
role keyword that is a substring of the folded persona, then truncated
to the first 5 entries. -/
def extractExpertiseAreas (persona : String) : List String :=
  (expertiseKeywords.foldl
    (fun areas kv =>
      if substrB kv.1.data (lowerList persona.data) then areas ++ kv.2 else areas)
    []).take 5

/-! ## Relevance ranker (`relevance_ranker.py`) -/

/-- The `ranking_factors` dictionary, whose keys are the fixed six
factor names. -/
structure Factors where
  keyword_match : Rat
  semantic_similarity : Rat
  section_type_importance : Rat
  content_length : Rat
  position_bias : Rat
  title_relevance : Rat
deriving DecidableEq

/-- Model of `sum(factors[f] * self.ranking_weights[f] for f in factors)` with the
fixed weights 0.25, 0.35, 0.25, 0.05, 0.05, 0.05 (exact rationals). -/
def weightedSum (f : Factors) : Rat :=
  f.keyword_match * (1 / 4) + f.semantic_similarity * (7 / 20) +
    f.section_type_importance * (1 / 4) + f.content_length * (1 / 20) +
    f.position_bias * (1 / 20) + f.title_relevance * (1 / 20)

/-- Model of `all_keywords`: the concatenation (not union) of the three persona
keyword lists, as in `_calculate_keyword_match_score`. -/
def allKeywords (pa : PersonaAnalysis) : List String :=
  pa.expertise_areas ++ pa.key_interests ++ pa.priority_keywords

/-- Contribution of one keyword in `_calculate_keyword_match_score`:
2 for a case-folded substring match in the title, else 1 for a match in
the body, else 0. -/
def keywordPoints (sec : ExtractedSection) (kw : String) : Nat :=
  let titleLower := lowerList sec.section_title.data
  let textLower := lowerList sec.section_text.data
  let kwLower := lowerList kw.data
  if substrB kwLower titleLower then 2
  else if substrB kwLower textLower then 1
  else 0

/-- The `matches` accumulator loop of `_calculate_keyword_match_score`. -/
def keywordMatches (sec : ExtractedSection) (pa : PersonaAnalysis) : Nat :=
  (allKeywords pa).foldl (fun acc kw => acc + keywordPoints sec kw) 0

/-- Model of `RelevanceRanker._calculate_keyword_match_score`. -/
def keywordMatchScore (sec : ExtractedSection) (pa : PersonaAnalysis) : Rat :=
  if (allKeywords pa).isEmpty then 0
  else
    min ((keywordMatches sec pa : Rat) / (((allKeywords pa).length : Rat) * (3 / 2))) 1

/-- Modelled from the spec claim (for comparison with
`keywordMatchScore`): the same factor computed over the *union* of the
three term lists — each distinct term counted once — with the sum
divided by the number of distinct terms times 1.5. -/
def specKeywordMatchScore (sec : ExtractedSection) (pa : PersonaAnalysis) : Rat :=
  if ((allKeywords pa).dedup).isEmpty then 0
  else
    min (((((allKeywords pa).dedup).map (keywordPoints sec)).sum : Rat) /
      ((((allKeywords pa).dedup).length : Rat) * (3 / 2))) 1

/-- The four `type_scores` profiles of
`RelevanceRanker._calculate_section_type_score`, with the
`dict.get(section_type, 0.5)` default. -/
def typeScoresReview (t : String) : Rat :=
  if t = "abstract" then 9 / 10 else if t = "introduction" then 4 / 5
  else if t = "methods" then 7 / 10 else if t = "results" then 3 / 5
  else if t = "discussion" then 4 / 5 else if t = "conclusion" then 7 / 10
  else if t = "references" then 1 / 2 else 1 / 2

def typeScoresAnalysis (t : String) : Rat :=
  if t = "abstract" then 7 / 10 else if t = "introduction" then 3 / 5
  else if t = "methods" then 9 / 10 else if t = "results" then 9 / 10
  else if t = "discussion" then 4 / 5 else if t = "conclusion" then 7 / 10
  else if t = "references" then 3 / 10 else 1 / 2

def typeScoresExam (t : String) : Rat :=
  if t = "abstract" then 3 / 5 else if t = "introduction" then 4 / 5
  else if t = "methods" then 7 / 10 else if t = "results" then 1 / 2
  else if t = "discussion" then 3 / 5 else if t = "conclusion" then 4 / 5
  else if t = "references" then 1 / 5 else 1 / 2

def typeScoresDefault (t : String) : Rat :=
  if t = "abstract" then 7 / 10 else if t = "introduction" then 7 / 10
  else if t = "methods" then 3 / 5 else if t = "results" then 3 / 5
  else if t = "discussion" then 3 / 5 else if t = "conclusion" then 3 / 5
  else if t = "references" then 3 / 10 else 1 / 2

/-- Model of `RelevanceRanker._calculate_section_type_score`. -/
def sectionTypeScore (sec : ExtractedSection) (pa : PersonaAnalysis) : Rat :=
  if substrB "literature review".data (lowerList pa.job_to_be_done.data) ||
      substrB "review".data (lowerList pa.job_to_be_done.data) then
    typeScoresReview sec.section_type
  else if substrB "analysis".data (lowerList pa.job_to_be_done.data) ||
      substrB "analyze".data (lowerList pa.job_to_be_done.data) then
    typeScoresAnalysis sec.section_type
  else if substrB "exam".data (lowerList pa.job_to_be_done.data) ||
      substrB "study".data (lowerList pa.job_to_be_done.data) then
    typeScoresExam sec.section_type
  else typeScoresDefault sec.section_type

/-- Model of `RelevanceRanker._calculate_content_length_score`. -/
def contentLengthScore (sec : ExtractedSection) : Rat :=
  if sec.section_text.data.length < 100 then 1 / 10
  else if sec.section_text.data.length < 500 then 3 / 5
  else if sec.section_text.data.length ≤ 3000 then 1
  else if sec.section_text.data.length ≤ 5000 then 4 / 5
  else 3 / 5

/-- Model of `RelevanceRanker._calculate_position_bias_score`. -/
def positionBiasScore (sec : ExtractedSection) : Rat :=
  if sec.page_number ≤ 2 then 1
  else if sec.page_number ≤ 5 then 4 / 5
  else if sec.page_number ≤ 10 then 3 / 5
  else 2 / 5

/-- The stop-word set of `_calculate_title_relevance_score`. -/
def titleStopWords : List (List Char) :=
  ["that".data, "with".data, "from".data, "this".data]

/-- Model of `RelevanceRanker._calculate_title_relevance_score`. -/
def titleRelevanceScore (sec : ExtractedSection) (pa : PersonaAnalysis) : Rat :=
  let titleLower := lowerList sec.section_title.data
  let jobKeywords := pySplit (lowerList pa.job_to_be_done.data)
  let meaningful := jobKeywords.filter (fun w => 3 < w.length && !titleStopWords.contains w)
  if meaningful.isEmpty then 1 / 2
  else
    let hits := (meaningful.filter (fun w => substrB w titleLower)).length
    min ((hits : Rat) / (meaningful.length : Rat)) 1

/-- The persona-plus-job context string of
`_calculate_semantic_similarity_score`. -/
def personaContext (pa : PersonaAnalysis) : String :=
  pa.persona ++ " " ++ pa.job_to_be_done

/-- The section content string of `_calculate_semantic_similarity_score`:
the title, plus a space and the first 500 body characters when the body
is non-empty. -/
def sectionContent (sec : ExtractedSection) : String :=
  if 0 < sec.section_text.data.length then
    sec.section_title ++ " " ++ String.mk (sec.section_text.data.take 500)
  else sec.section_title

/-- The high-similarity boost of `_calculate_semantic_similarity_score`:
above 0.7, multiply by 1.2 and clamp to 1. -/
def boostSim (s : Rat) : Rat := if 7 / 10 < s then min (s * (6 / 5)) 1 else s

/-- Model of `RelevanceRanker._calculate_semantic_similarity_score` on its
success path (the backend never raises in this model, so the
`fuzzywuzzy` fallback chain is dead code). -/
def semanticSimilarityScore (sec : ExtractedSection) (pa : PersonaAnalysis) : Rat :=
  boostSim (computeSimilarity (personaContext pa) (sectionContent sec))

/-- The `factors` dictionary built by
`RelevanceRanker._calculate_relevance_score`. -/
def relevanceFactors (sec : ExtractedSection) (pa : PersonaAnalysis) : Factors :=
  { keyword_match := keywordMatchScore sec pa
    semantic_similarity := semanticSimilarityScore sec pa
    section_type_importance := sectionTypeScore sec pa
    content_length := contentLengthScore sec
    position_bias := positionBiasScore sec
    title_relevance := titleRelevanceScore sec pa }

/-- Model of `RelevanceRanker._calculate_relevance_score`: the six factors and
their weighted total. -/
def calculateRelevanceScore (sec : ExtractedSection) (pa : PersonaAnalysis) :
    Rat × Factors :=
  (weightedSum (relevanceFactors sec pa), relevanceFactors sec pa)

/-- Model of `relevance_ranker.RankedSection` (the Python field `section` is
renamed `sect` because `section` is a Lean keyword). -/
structure RankedSection where
  sect : ExtractedSection
  relevance_score : Rat
  ranking_factors : Factors
  importance_rank : Nat
deriving DecidableEq

/-- One element of the `ranked_sections` list before sorting
(`importance_rank=0`, set after sorting). -/
def mkRankedSection (pa : PersonaAnalysis) (sec : ExtractedSection) : RankedSection :=
  let sf := calculateRelevanceScore sec pa
  ⟨sec, sf.1, sf.2, 0⟩

/-- The `ranked_sections` list of `rank_sections`, in input order. -/
def scoredList (pa : PersonaAnalysis) (sections : List ExtractedSection) :
    List RankedSection :=
  sections.map (mkRankedSection pa)

/-- The ordering of `ranked_sections.sort(key=lambda x: x.relevance_score,
reverse=True)`: descending by score. Python's sort is stable, which
`List.insertionSort` with this relation models. -/
def scoreGE (a b : RankedSection) : Prop := b.relevance_score ≤ a.relevance_score

instance : DecidableRel scoreGE := fun a b =>
  inferInstanceAs (Decidable (b.relevance_score ≤ a.relevance_score))

instance : IsTotal RankedSection scoreGE :=
  ⟨fun a b => (le_total b.relevance_score a.relevance_score).elim Or.inl Or.inr⟩

instance : IsTrans RankedSection scoreGE :=
  ⟨fun _ _ _ hab hbc => le_trans hbc hab⟩

/-- Model of `for i, ranked_section in enumerate(ranked_sections, 1):
ranked_section.importance_rank = i`. -/
def assignRanks (i : Nat) : List RankedSection → List RankedSection
  | [] => []
  | s :: rest => { s with importance_rank := i } :: assignRanks (i + 1) rest

/-- Model of `RelevanceRanker.rank_sections`: score every section in order, sort
descending by score (stable), assign ranks 1..N, then log the top score.
The final log statement evaluates `ranked_sections[0]` unconditionally,
so on an empty input the function raises `IndexError` instead of
returning — modelled by `Except.error`. -/
def rankSections (pa : PersonaAnalysis) (sections : List ExtractedSection) :
    Except String (List RankedSection) :=
  match assignRanks 1 (List.insertionSort scoreGE (scoredList pa sections)) with
  | [] => Except.error "IndexError: list index out of range"
  | a :: t => Except.ok (a :: t)

/-! ## Concrete example inputs -/

/-- Text whose first header match is at position 0 and whose trailing
text is matched by several patterns at different positions. -/
def exTextC3 : String := "Results\nMethods\n1. Data"

/-- A letters-and-spaces filler line (no digits, no punctuation), long
enough to push a page past the 200-character fallback threshold. -/
def exFillerA : String := "all work and no play makes jack a dull boy all work and no play makes jack a dull boy all work and no play makes jack a dull boy all work and no play makes jack a dull boy all work and no play makes jack a dull boy "

/-- A document whose full text contains three header matches
(`Abstract`, `Results`, and one all-caps-rule match) but whose
structural sections are all shorter than 50 characters, with the same
text as its single page. -/
def exTextA : String := "Abstract\nResults\n" ++ exFillerA

def exDocA : ProcessedDocument := ⟨"doc.pdf", exTextA, [⟨1, exTextA⟩]⟩

/-- The page-fallback section that `exDocA` produces. -/
def exSecA : ExtractedSection :=
  ⟨"doc.pdf", 1, "Abstract", exTextA, "content", 1 / 2, 0, exTextA.data.length⟩

/-- A document with two numbered headings whose bodies both exceed 50
characters, so the structural pass alone produces two sections. -/
def exTextB : String := "1. Introduction\nHello there friend. this body is long enough to pass fifty characters with ease 4 sure.\n2. Methods\nAnother body, with 2 digits and punctuation 4 every line; long enough to pass fifty chars."

def exDocB : ProcessedDocument := ⟨"doc.pdf", exTextB, []⟩

/-- A document with empty text and no pages: segmentation yields zero
segments. -/
def exDocEmpty : ProcessedDocument := ⟨"empty.pdf", "", []⟩

/-- Section and persona exhibiting a repeated keyword across the three
persona term lists ("a" occurs in both expertise and interests). -/
def exSecKw : ExtractedSection := ⟨"d", 1, "a", "xyz", "content", 7 / 10, 0, 3⟩

def exPaKw : PersonaAnalysis := ⟨"", "", ["a", "b"], ["a"], []⟩

/-- The segment and persona terms of the spec's keyword-match scenario. -/
def exSecTravel : ExtractedSection :=
  ⟨"d", 1, "Travel Guide", "body text", "content", 7 / 10, 0, 9⟩

def exPaTravel : PersonaAnalysis := ⟨"Travel Planner", "", ["travel", "guide"], [], []⟩

/-- Small inputs for exercising the ranker. -/
def exSecR : ExtractedSection := ⟨"d", 1, "t", "b", "content", 7 / 10, 0, 1⟩

def exPaR : PersonaAnalysis := ⟨"p", "j", [], [], []⟩

/-! ## Helper lemmas -/

theorem findSome_eq_head_filterMap {α β : Type} (f : α → Option β) :
    ∀ l : List α, l.findSome? f = (l.filterMap f).head? := by
  intro l
  induction l with
  | nil => rfl
  | cons a t ih =>
    cases h : f a with
    | none => rw [List.findSome?_cons, h, List.filterMap_cons, h]; exact ih
    | some b => rw [List.findSome?_cons, h, List.filterMap_cons, h]; rfl

theorem stripChars_length_le (l : List Char) : (stripChars l).length ≤ l.length := by
  have h1 : ((l.dropWhile pySpace).reverse.dropWhile pySpace).length ≤
      (l.dropWhile pySpace).reverse.length := (List.dropWhile_sublist _).length_le
  have h2 : (l.dropWhile pySpace).length ≤ l.length := (List.dropWhile_sublist _).length_le
  unfold stripChars
  rw [List.length_reverse]
  rw [List.length_reverse] at h1
  omega

theorem mem_of_mem_removeDupAux (s : ExtractedSection) :
    ∀ (l : List ExtractedSection) (seen : List (List Char)),
      s ∈ removeDupAux seen l → s ∈ l := by
  intro l
  induction l with
  | nil => intro seen h; simp [removeDupAux] at h
  | cons a t ih =>
    intro seen h
    simp only [removeDupAux] at h
    split at h
    · exact List.mem_cons_of_mem _ (ih _ h)
    · rcases List.mem_cons.1 h with rfl | hh
      · exact List.mem_cons_self _ _
      · exact List.mem_cons_of_mem _ (ih _ hh)

theorem mem_of_mem_removeDuplicateSections {s : ExtractedSection}
    {l : List ExtractedSection} (h : s ∈ removeDuplicateSections l) : s ∈ l :=
  mem_of_mem_removeDupAux s l [] h

theorem length_mk_eq (l : List Char) : (String.mk l).length = l.length := rfl

theorem length_of_mem_extractFromFullText {doc : ProcessedDocument}
    {s : ExtractedSection} (h : s ∈ extractFromFullText doc) :
    50 ≤ s.section_text.length := by
  rcases List.mem_flatMap.1 h with ⟨p, _, hm⟩
  rcases List.mem_filterMap.1 hm with ⟨m, _, heq⟩
  unfold structuralSection at heq
  split at heq
  · simp at heq
  · rename_i hlen
    cases heq
    simpa [length_mk_eq] using Nat.le_of_not_lt hlen

theorem length_of_mem_extractFromPages {doc : ProcessedDocument}
    {s : ExtractedSection} (h : s ∈ extractFromPages doc) :
    50 ≤ s.section_text.length := by
  rcases List.mem_filterMap.1 h with ⟨page, _, heq⟩
  unfold pageSection at heq
  split at heq
  · rename_i hlen
    cases heq
    have := stripChars_length_le page.text.data
    show 50 ≤ page.text.data.length
    omega
  · simp at heq

/-! ## Claims -/

/-- C3 (amended): for every structural-pass header match, the computed
section end is `start + 1` plus the leftmost match position of the
*first pattern in the fixed pattern-list order* that matches the text
after the current match (not the nearest match over all patterns); only
when no pattern matches afterwards is the end
`min (start + 5000) (length of text)`. -/
theorem claim_C3 (text : List Char) (startPos : Nat) :
    findSectionEnd text startPos =
      match headerPatterns.filterMap
          (fun p => (searchPat p (text.drop (startPos + 1))).map (fun pr => pr.1)) with
      | [] => min (startPos + 5000) text.length
      | q :: _ => startPos + 1 + q := by
  unfold findSectionEnd
  rw [findSome_eq_head_filterMap]
  cases headerPatterns.filterMap
      (fun p => (searchPat p (text.drop (startPos + 1))).map (fun pr => pr.1)) with
  | nil => rfl
  | cons q qs => rfl

/-- C3 counterexample: in `"Results\nMethods\n1. Data"` a header matches
at position 0 (so `_find_section_end` is consulted there by the
structural pass), the code computes end position 16 (the start of the
later `"1. Data"` match, because the numbered-heading pattern is first
in the pattern list), while the nearest next matched header start —
which the claim says is the computed end — is position 1. -/
theorem counterexample_C3 :
    (headerPatterns.any (fun p => (finditer p exTextC3.data).any (fun m => m.start == 0)))
        = true ∧
      findSectionEnd exTextC3.data 0 = 16 ∧ nearestSectionEnd exTextC3.data 0 = 1 := by
  exact ⟨by decide, by decide, by decide⟩

/-- C4: every segment emitted by the segmenter — structural pass or
page-fallback pass, after deduplication and sorting — has a body of at
least 50 characters. -/
theorem claim_C4 (docs : List ProcessedDocument) (s : ExtractedSection)
    (h : s ∈ extractSections docs) : 50 ≤ s.section_text.length := by
  rcases List.mem_flatMap.1 h with ⟨doc, _, hs⟩
  unfold extractSectionsFromDocument at hs
  have hs2 := (List.mem_insertionSort startLE).1 hs
  have hs3 := mem_of_mem_removeDuplicateSections hs2
  split at hs3
  · rcases List.mem_append.1 hs3 with h1 | h2
    · exact length_of_mem_extractFromFullText h1
    · exact length_of_mem_extractFromPages h2
  · exact length_of_mem_extractFromFullText hs3

theorem witness_C4 :
    exSecA ∈ extractSections [exDocA] ∧ 50 ≤ exSecA.section_text.length :=
  have he : extractSections [exDocA] = [exSecA] := rfl
  have hm : exSecA ∈ extractSections [exDocA] := he ▸ List.mem_cons_self _ _
  ⟨hm, claim_C4 [exDocA] exSecA hm⟩

/-- C2 (amended): the page-fallback pass is skipped exactly when the
structural pass *produces at least 2 segments* (after the 50-character
filter); in that case the segmenter's output is the sorted
deduplication of the structural-pass segments alone. The trigger counts
surviving structural segments, not detected headers. -/
theorem claim_C2 (doc : ProcessedDocument) (h : 2 ≤ (extractFromFullText doc).length) :
    extractSectionsFromDocument doc =
      List.insertionSort startLE (removeDuplicateSections (extractFromFullText doc)) := by
  unfold extractSectionsFromDocument
  rw [if_neg (by omega)]

theorem witness_C2 :
    2 ≤ (extractFromFullText exDocB).length ∧
      extractSectionsFromDocument exDocB =
        List.insertionSort startLE (removeDuplicateSections (extractFromFullText exDocB)) :=
  ⟨by decide, claim_C2 exDocB (by decide)⟩

/-- C2 counterexample: `exDocA` has 3 detected structural header
matches, yet every structural candidate body is shorter than 50
characters, so the structural pass produces no segment, the
page-fallback pass runs, and the segmenter's output is the fallback
page segment (confidence 0.5, type "content") — not a structural-pass
segment. -/
theorem counterexample_C2 :
    2 ≤ headersDetected exDocA ∧ extractFromFullText exDocA = [] ∧
      extractSectionsFromDocument exDocA = [exSecA] := by
  exact ⟨by decide, by decide, rfl⟩

/-- C7: the lexical similarity fallback is Jaccard similarity of the
case-folded whitespace-tokenized word sets, and is exactly 0 when
either word set is empty; in particular on an empty string against
anything it returns exactly 0. -/
theorem claim_C7 (t1 t2 : String) :
    (wordSet t1 = ∅ ∨ wordSet t2 = ∅ → fallbackSimilarityScore t1 t2 = 0) ∧
      (wordSet t1 ≠ ∅ → wordSet t2 ≠ ∅ →
        fallbackSimilarityScore t1 t2 =
          ((wordSet t1 ∩ wordSet t2).card : Rat) / ((wordSet t1 ∪ wordSet t2).card : Rat)) ∧
      fallbackSimilarityScore "" "anything" = 0 ∧
      fallbackSimilarityScore "anything" "" = 0 := by
  refine ⟨?_, ?_, ?_, ?_⟩
  · intro h
    unfold fallbackSimilarityScore
    rw [if_pos h]
  · intro h1 h2
    have hpos : 0 < (wordSet t1 ∪ wordSet t2).card :=
      Finset.card_pos.2
        ((Finset.nonempty_iff_ne_empty.2 h1).mono Finset.subset_union_left)
    unfold fallbackSimilarityScore
    rw [if_neg (by tauto), if_pos hpos]
  · rfl
  · rfl

theorem witness_C7 :
    wordSet "a b" ≠ ∅ ∧ wordSet "b c" ≠ ∅ ∧
      fallbackSimilarityScore "a b" "b c" =
        ((wordSet "a b" ∩ wordSet "b c").card : Rat) /
          ((wordSet "a b" ∪ wordSet "b c").card : Rat) :=
  ⟨by decide, by decide, (claim_C7 "a b" "b c").2.1 (by decide) (by decide)⟩

/-- C10: `compute_similarity` always resolves to the lexical fallback —
`get_sentence_encoder` returns no encoder — and the ranker's semantic
factor is the boosted fallback score of the persona context against the
section content; both are total functions of their inputs, so repeated
scoring of the same pair is identical by construction. -/
theorem claim_C10 (t1 t2 : String) (sec : ExtractedSection) (pa : PersonaAnalysis) :
    computeSimilarity t1 t2 = fallbackSimilarityScore t1 t2 ∧
      semanticSimilarityScore sec pa =
        boostSim (fallbackSimilarityScore (personaContext pa) (sectionContent sec)) :=
  ⟨rfl, rfl⟩

/-- C8: a document with empty text yields zero segments, and on zero
segments the ranker does *not* return an empty result: the final log
statement of `rank_sections` subscripts the empty list and raises
`IndexError`. The claim (and spec) say this input must complete and
return an empty result set. -/
theorem claim_C8 (pa : PersonaAnalysis) :
    extractSections [exDocEmpty] = [] ∧
      rankSections pa (extractSections [exDocEmpty]) =
        Except.error "IndexError: list index out of range" :=
  ⟨rfl, rfl⟩

theorem foldl_extend_eq_filter_flatMap (cond : String × List String → Bool) :
    ∀ (table : List (String × List String)) (acc : List String),
      table.foldl (fun areas kv => if cond kv then areas ++ kv.2 else areas) acc =
        acc ++ (table.filter cond).flatMap (fun kv => kv.2) := by
  intro table
  induction table with
  | nil => intro acc; simp
  | cons a t ih =>
    intro acc
    cases h : cond a <;>
      simp [List.foldl_cons, List.filter_cons, h, ih, List.append_assoc]

/-- C9 (amended): the expertise-term list is the *concatenation*, in
table order, of the term lists of every matching role keyword, truncated
to the first 5 entries; duplicate terms are retained, not unioned away. -/
theorem claim_C9 (persona : String) :
    extractExpertiseAreas persona =
        ((expertiseKeywords.filter
            (fun kv => substrB kv.1.data (lowerList persona.data))).flatMap
          (fun kv => kv.2)).take 5 ∧
      (extractExpertiseAreas persona).length ≤ 5 := by
  constructor
  · unfold extractExpertiseAreas
    rw [foldl_extend_eq_filter_flatMap]
    rw [List.nil_append]
  · exact List.length_take_le _ _

/-- C9 counterexample: a persona matching both "researcher" and
"analyst" gets the shared term "analysis" twice — the claim says the
shared term appears only once. -/
theorem counterexample_C9 :
    extractExpertiseAreas "researcher analyst" =
        ["research", "analysis", "methodology", "data", "analysis"] ∧
      ¬ (extractExpertiseAreas "researcher analyst").Nodup :=
  ⟨by decide, by decide⟩

theorem foldl_add_eq_sum (f : String → Nat) :
    ∀ (l : List String) (acc : Nat),
      l.foldl (fun a kw => a + f kw) acc = acc + (l.map f).sum := by
  intro l
  induction l with
  | nil => intro acc; simp
  | cons a t ih => intro acc; simp [List.foldl_cons, ih]; omega

/-- C6 (amended): the keyword factor sums the per-term points (2 for a
title substring match, else 1 for a body match, else 0) over the
*concatenation* of the three persona term lists — terms counted with
multiplicity — divided by the concatenated list's length times 1.5 and
clamped to 1; with no terms it is 0. The spec scenario holds: persona
terms travel/guide against a segment titled "Travel Guide" give
(2+2) / 3 clamped to 1. -/
theorem claim_C6 (sec : ExtractedSection) (pa : PersonaAnalysis) :
    keywordMatchScore sec pa =
        (if (allKeywords pa).isEmpty then 0
         else
           min ((((allKeywords pa).map (fun kw => (keywordPoints sec kw : Rat))).sum) /
             (((allKeywords pa).length : Rat) * (3 / 2))) 1) ∧
      keywordMatchScore exSecTravel exPaTravel = 1 := by
  constructor
  · unfold keywordMatchScore keywordMatches
    rw [foldl_add_eq_sum, Nat.zero_add, Nat.cast_list_sum, List.map_map]
    rfl
  · have h1 : keywordMatches exSecTravel exPaTravel = 4 := by decide
    have h2 : allKeywords exPaTravel = ["travel", "guide"] := rfl
    simp only [keywordMatchScore, h1, h2]
    rw [if_neg (by decide)]
    rw [min_eq_right (by norm_num)]

/-- C6 counterexample: with expertise terms ["a", "b"] and interest
terms ["a"], the code scores 4 / (3 × 1.5) = 8/9 (the duplicated term
"a" contributes twice and the denominator counts it twice), while the
claimed union-based formula gives 2 / (2 × 1.5) = 2/3. -/
theorem counterexample_C6 :
    keywordMatchScore exSecKw exPaKw = 8 / 9 ∧
      specKeywordMatchScore exSecKw exPaKw = 2 / 3 ∧
      ¬ ((8 : Rat) / 9 = 2 / 3) := by
  refine ⟨?_, ?_, by norm_num⟩
  · have h1 : keywordMatches exSecKw exPaKw = 4 := by decide
    have h2 : allKeywords exPaKw = ["a", "b", "a"] := rfl
    simp only [keywordMatchScore, h1, h2]
    rw [if_neg (by decide)]
    rw [min_eq_left (by norm_num)]
    norm_num
  · have hd : (allKeywords exPaKw).dedup = ["b", "a"] := by decide
    have hs : ((["b", "a"] : List String).map (keywordPoints exSecKw)).sum = 2 := by decide
    simp only [specKeywordMatchScore, hd, hs]
    rw [if_neg (by decide)]
    rw [min_eq_left (by norm_num)]
    norm_num

theorem keywordMatchScore_bounds (sec : ExtractedSection) (pa : PersonaAnalysis) :
    0 ≤ keywordMatchScore sec pa ∧ keywordMatchScore sec pa ≤ 1 := by
  unfold keywordMatchScore
  split
  · norm_num
  · constructor
    · exact le_min
        (div_nonneg (Nat.cast_nonneg _) (mul_nonneg (Nat.cast_nonneg _) (by norm_num)))
        (by norm_num)
    · exact min_le_right _ _

theorem fallbackSimilarityScore_bounds (t1 t2 : String) :
    0 ≤ fallbackSimilarityScore t1 t2 ∧ fallbackSimilarityScore t1 t2 ≤ 1 := by
  unfold fallbackSimilarityScore
  split
  · norm_num
  · split
    · rename_i hpos
      constructor
      · exact div_nonneg (Nat.cast_nonneg _) (Nat.cast_nonneg _)
      · rw [div_le_one (by exact_mod_cast hpos)]
        exact_mod_cast Finset.card_le_card Finset.inter_subset_union
    · norm_num

theorem boostSim_bounds {s : Rat} (h0 : 0 ≤ s) (h1 : s ≤ 1) :
    0 ≤ boostSim s ∧ boostSim s ≤ 1 := by
  unfold boostSim
  split
  · exact ⟨le_min (by linarith) (by norm_num), min_le_right _ _⟩
  · exact ⟨h0, h1⟩

theorem semanticSimilarityScore_bounds (sec : ExtractedSection) (pa : PersonaAnalysis) :
    0 ≤ semanticSimilarityScore sec pa ∧ semanticSimilarityScore sec pa ≤ 1 := by
  obtain ⟨h0, h1⟩ := fallbackSimilarityScore_bounds (personaContext pa) (sectionContent sec)
  exact boostSim_bounds h0 h1

theorem typeScoresReview_bounds (t : String) :
    0 ≤ typeScoresReview t ∧ typeScoresReview t ≤ 1 := by
  unfold typeScoresReview
  split_ifs <;> norm_num

theorem typeScoresAnalysis_bounds (t : String) :
    0 ≤ typeScoresAnalysis t ∧ typeScoresAnalysis t ≤ 1 := by
  unfold typeScoresAnalysis
  split_ifs <;> norm_num

theorem typeScoresExam_bounds (t : String) :
    0 ≤ typeScoresExam t ∧ typeScoresExam t ≤ 1 := by
  unfold typeScoresExam
  split_ifs <;> norm_num

theorem typeScoresDefault_bounds (t : String) :
    0 ≤ typeScoresDefault t ∧ typeScoresDefault t ≤ 1 := by
  unfold typeScoresDefault
  split_ifs <;> norm_num

theorem sectionTypeScore_bounds (sec : ExtractedSection) (pa : PersonaAnalysis) :
    0 ≤ sectionTypeScore sec pa ∧ sectionTypeScore sec pa ≤ 1 := by
  unfold sectionTypeScore
  split_ifs
  · exact typeScoresReview_bounds _
  · exact typeScoresAnalysis_bounds _
  · exact typeScoresExam_bounds _
  · exact typeScoresDefault_bounds _

theorem contentLengthScore_bounds (sec : ExtractedSection) :
    0 ≤ contentLengthScore sec ∧ contentLengthScore sec ≤ 1 := by
  unfold contentLengthScore
  split_ifs <;> norm_num

theorem positionBiasScore_bounds (sec : ExtractedSection) :
    0 ≤ positionBiasScore sec ∧ positionBiasScore sec ≤ 1 := by
  unfold positionBiasScore
  split_ifs <;> norm_num

theorem titleRelevanceScore_bounds (sec : ExtractedSection) (pa : PersonaAnalysis) :
    0 ≤ titleRelevanceScore sec pa ∧ titleRelevanceScore sec pa ≤ 1 := by
  simp only [titleRelevanceScore]
  split
  · norm_num
  · constructor
    · exact le_min (div_nonneg (Nat.cast_nonneg _) (Nat.cast_nonneg _)) (by norm_num)
    · exact min_le_right _ _

/-- C1: every score produced by `_calculate_relevance_score` lies in
[0, 1] and equals the sum over the six factors of the factor value
times its fixed weight (0.25, 0.35, 0.25, 0.05, 0.05, 0.05). Floats are
modelled as exact rationals, so the 1e-6 tolerance is met exactly. -/
theorem claim_C1 (sec : ExtractedSection) (pa : PersonaAnalysis) :
    0 ≤ (calculateRelevanceScore sec pa).1 ∧
      (calculateRelevanceScore sec pa).1 ≤ 1 ∧
      (calculateRelevanceScore sec pa).1 = weightedSum (calculateRelevanceScore sec pa).2 := by
  obtain ⟨k0, k1⟩ := keywordMatchScore_bounds sec pa
  obtain ⟨s0, s1⟩ := semanticSimilarityScore_bounds sec pa
  obtain ⟨t0, t1⟩ := sectionTypeScore_bounds sec pa
  obtain ⟨c0, c1⟩ := contentLengthScore_bounds sec
  obtain ⟨p0, p1⟩ := positionBiasScore_bounds sec
  obtain ⟨r0, r1⟩ := titleRelevanceScore_bounds sec pa
  refine ⟨?_, ?_, rfl⟩ <;>
  · simp only [calculateRelevanceScore, relevanceFactors, weightedSum]
    linarith

theorem filter_orderedInsert_score (c : Rat) (a : RankedSection) :
    ∀ l : List RankedSection,
      (List.orderedInsert scoreGE a l).filter (fun s => decide (s.relevance_score = c)) =
        if a.relevance_score = c then
          a :: l.filter (fun s => decide (s.relevance_score = c))
        else l.filter (fun s => decide (s.relevance_score = c)) := by
  intro l
  induction l with
  | nil =>
    by_cases hac : a.relevance_score = c <;>
      simp [List.orderedInsert, List.filter_cons, hac]
  | cons b t ih =>
    rw [List.orderedInsert]
    by_cases hab : scoreGE a b
    · rw [if_pos hab]
      by_cases hac : a.relevance_score = c <;>
        simp [List.filter_cons, hac]
    · rw [if_neg hab]
      have hbc : ¬ b.relevance_score = c ∨ ¬ a.relevance_score = c := by
        by_contra hcon
        push_neg at hcon
        exact hab (le_of_eq (hcon.1.trans hcon.2.symm))
      by_cases hac : a.relevance_score = c
      · have hb : ¬ b.relevance_score = c := by tauto
        simp [List.filter_cons, hb, hac, ih]
      · by_cases hb : b.relevance_score = c <;>
          simp [List.filter_cons, hb, hac, ih]

theorem filter_insertionSort_score (c : Rat) :
    ∀ l : List RankedSection,
      (List.insertionSort scoreGE l).filter (fun s => decide (s.relevance_score = c)) =
        l.filter (fun s => decide (s.relevance_score = c)) := by
  intro l
  induction l with
  | nil => rfl
  | cons a t ih =>
    rw [List.insertionSort, filter_orderedInsert_score]
    by_cases hac : a.relevance_score = c <;>
      simp [List.filter_cons, hac, ih]

theorem length_assignRanks : ∀ (l : List RankedSection) (i : Nat),
    (assignRanks i l).length = l.length := by
  intro l
  induction l with
  | nil => intro i; rfl
  | cons a t ih => intro i; simp [assignRanks, ih]

theorem map_rank_assignRanks : ∀ (l : List RankedSection) (i : Nat),
    (assignRanks i l).map (fun r => r.importance_rank) = List.range' i l.length := by
  intro l
  induction l with
  | nil => intro i; rfl
  | cons a t ih => intro i; simp [assignRanks, List.range'_succ, ih]

/-- C5: on a non-empty input the ranker returns (without error) the
rank-annotated stable descending sort of the scored segments: the
sorted list is a permutation of the input scores, is sorted descending
by score, preserves the input order among segments of any equal score
`c` (stability / tie-breaking), and the assigned importance ranks are
exactly 1..N in order. -/
theorem claim_C5 (sections : List ExtractedSection) (pa : PersonaAnalysis) (c : Rat)
    (h : sections ≠ []) :
    rankSections pa sections =
        Except.ok (assignRanks 1 (List.insertionSort scoreGE (scoredList pa sections))) ∧
      (List.insertionSort scoreGE (scoredList pa sections)).Perm (scoredList pa sections) ∧
      List.Sorted scoreGE (List.insertionSort scoreGE (scoredList pa sections)) ∧
      (List.insertionSort scoreGE (scoredList pa sections)).filter
          (fun s => decide (s.relevance_score = c)) =
        (scoredList pa sections).filter (fun s => decide (s.relevance_score = c)) ∧
      (assignRanks 1 (List.insertionSort scoreGE (scoredList pa sections))).map
          (fun r => r.importance_rank) = List.range' 1 sections.length := by
  refine ⟨?_, List.perm_insertionSort _ _, List.sorted_insertionSort _ _,
    filter_insertionSort_score c _, ?_⟩
  · have hne : assignRanks 1 (List.insertionSort scoreGE (scoredList pa sections)) ≠ [] := by
      intro heq
      have hlen := congrArg List.length heq
      rw [length_assignRanks, List.length_insertionSort] at hlen
      simp only [scoredList, List.length_map, List.length_nil] at hlen
      exact h (List.eq_nil_of_length_eq_zero hlen)
    obtain ⟨a, t, hat⟩ := List.exists_cons_of_ne_nil hne
    unfold rankSections
    rw [hat]
  · rw [map_rank_assignRanks, List.length_insertionSort]
    simp [scoredList]

theorem witness_C5 :
    [exSecR] ≠ ([] : List ExtractedSection) ∧
      rankSections exPaR [exSecR] =
        Except.ok (assignRanks 1 (List.insertionSort scoreGE (scoredList exPaR [exSecR]))) ∧
      (assignRanks 1 (List.insertionSort scoreGE (scoredList exPaR [exSecR]))).map
          (fun r => r.importance_rank) = List.range' 1 1 :=
  ⟨by decide, (claim_C5 [exSecR] exPaR 0 (by decide)).1,
    (claim_C5 [exSecR] exPaR 0 (by decide)).2.2.2.2⟩

end DocAnalyst
